import Mathlib

/-!
Verification development for the browserplex MCP browser-automation server.

The definitions below are a shallow embedding of the core subsystems:
  - the storage-state manager (`storage.ts`): name sanitization, session file
    paths, and the per-domain file lock (acquire / release / isLocked);
  - the session registry (`sessions.ts`): create / get / destroy / destroyAll
    over an in-memory name-keyed map;
  - the reference-indexed accessibility snapshot engine (`snapshot.ts`):
    line-oriented ARIA-tree processing, ref assignment with nth
    disambiguation, and ref-token parsing / locator resolution;
  - the tool layer helper `getLocator` (`index.ts`).

Filesystem and browser effects are represented by explicit state values
(association lists keyed by strings) and by parameters standing for
external effect outcomes (current time, process id, whether a close failed).
-/

namespace Browserplex

/-! ## Association-list helpers (model of JS `Map` / keyed objects) -/

/-- Lookup in an association list (model of `Map.get` / object indexing). -/
def alLookup {α : Type} (l : List (String × α)) (k : String) : Option α :=
  match l with
  | [] => none
  | (k2, v) :: rest => if k2 = k then some v else alLookup rest k

/-- Insert-or-replace in an association list (model of `Map.set` /
`obj[k] = v`): replaces the first binding of `k`, else appends, preserving
insertion order as a JS `Map` does. -/
def alUpdate {α : Type} (l : List (String × α)) (k : String) (v : α) :
    List (String × α) :=
  match l with
  | [] => [(k, v)]
  | (k2, v2) :: rest =>
      if k2 = k then (k2, v) :: rest else (k2, v2) :: alUpdate rest k v

/-- Remove every binding of `k` (model of `Map.delete` / `fs.unlink`; JS maps
hold at most one binding per key, so this agrees with deleting that one). -/
def alErase {α : Type} (l : List (String × α)) (k : String) :
    List (String × α) :=
  l.filter (fun p => p.1 ≠ k)

/-! ## Storage-state manager: name sanitization (`storage.ts`)

`sanitizeName` is, in the source,
`name.replace(/[/\\]/g, '_').replace(/\.\./g, '_')`:
first every `/` and `\` becomes `_`, then every occurrence of `..` is
replaced by `_`, scanning left to right without overlap (the semantics of a
global regex replace). -/

/-- First replace pass: every path separator becomes an underscore. -/
def replaceSeps (l : List Char) : List Char :=
  l.map (fun c => if c = '/' ∨ c = '\\' then '_' else c)

/-- Second replace pass: each non-overlapping occurrence of `..`, scanned
left to right, becomes a single underscore. -/
def replaceDotDot : List Char → List Char
  | [] => []
  | '.' :: '.' :: rest => '_' :: replaceDotDot rest
  | c :: rest => c :: replaceDotDot rest

/-- `sanitizeName` from `storage.ts`. -/
def sanitizeName (s : String) : String :=
  ⟨replaceDotDot (replaceSeps s.data)⟩

/-- Whether a character list contains two consecutive dots (a `..` sequence). -/
def hasDotDot : List Char → Bool
  | c1 :: c2 :: rest => (c1 = '.' && c2 = '.') || hasDotDot (c2 :: rest)
  | _ => false

/-- Whether a character is a path separator. -/
def isSep (c : Char) : Bool := c = '/' || c = '\\'

/-- Sessions root directory (`~/.browserplex/sessions`); the home prefix is
abstracted as a parameter, since `os.homedir()` is environment input. -/
def sessionsDir (home : String) : String := home ++ "/.browserplex/sessions"

/-- `getSessionPath` from `storage.ts`: `path.join(SESSIONS_DIR,
sanitizeName(domain), sanitizeName(name) + ".json")`.  Sanitized segments
contain no separators and no `..`, so `path.join` performs no normalization
and is plain `/`-joining. -/
def getSessionPath (home domain name : String) : String :=
  sessionsDir home ++ "/" ++ sanitizeName domain ++ "/" ++ sanitizeName name
    ++ ".json"

/-- `getLockPath` from `storage.ts`. -/
def getLockPath (home domain : String) : String :=
  sessionsDir home ++ "/" ++ sanitizeName domain ++ "/.lock"

/-! ## Storage-state manager: domain locks (`storage.ts`)

The lock file of a domain lives at `<sessions>/<sanitized-domain>/.lock` and
holds a JSON record `{domain, acquiredAt, pid}`.  We model the filesystem
restricted to lock files as an association list keyed by the sanitized
domain segment (which determines the lock path), holding the parsed record.
Time (`Date.now()`) and the process id are explicit parameters. -/

/-- `LockInfo` from `types.ts`. -/
structure LockInfo where
  domain : String
  acquiredAt : Nat
  pid : Nat
  deriving DecidableEq, Repr

/-- `LOCK_TIMEOUT_MS` from `storage.ts` (5 minutes). -/
def LOCK_TIMEOUT_MS : Nat := 5 * 60 * 1000

/-- The filesystem state restricted to domain lock files. -/
abbrev LockState : Type := List (String × LockInfo)

/-- The key a domain locks under: its sanitized segment (this determines the
lock path `<sessions>/<segment>/.lock`). -/
def lockKey (domain : String) : String := sanitizeName domain

/-- `StorageManager.acquireLock`: read the lock file; a stale lock (older
than the timeout) is unlinked and acquisition proceeds; a fresh lock means
`false` with nothing modified; otherwise the lock record is written with an
atomic create-if-absent.  (`Date.now() - acquiredAt` on JS numbers and
truncated `Nat` subtraction compare to the timeout identically, since a
negative difference and `0` are both `≤` the timeout.) -/
def acquireLock (st : LockState) (domain : String) (now pid : Nat) :
    Bool × LockState :=
  match alLookup st (lockKey domain) with
  | some info =>
      if now - info.acquiredAt > LOCK_TIMEOUT_MS then
        (true, alUpdate (alErase st (lockKey domain)) (lockKey domain)
          ⟨domain, now, pid⟩)
      else
        (false, st)
  | none => (true, alUpdate st (lockKey domain) ⟨domain, now, pid⟩)

/-- `StorageManager.releaseLock`: delete the lock file only when the
recorded pid is that of the caller; a missing or unreadable file is ignored. -/
def releaseLock (st : LockState) (domain : String) (pid : Nat) : LockState :=
  match alLookup st (lockKey domain) with
  | some info =>
      if info.pid = pid then alErase st (lockKey domain) else st
  | none => st

/-- `StorageManager.isLocked`: `false` for a missing or stale lock, `true`
otherwise; never mutates state. -/
def isLocked (st : LockState) (domain : String) (now : Nat) : Bool :=
  match alLookup st (lockKey domain) with
  | some info => !(now - info.acquiredAt > LOCK_TIMEOUT_MS)
  | none => false

/-! ## Session registry (`sessions.ts`) -/

/-- `BrowserType` from `types.ts`: the declared union of engine kinds. -/
inductive BrowserType
  | chromium
  | firefox
  | webkit
  | camoufox
  deriving DecidableEq, Repr

/-- The string form of a browser type (its union-member literal). -/
def BrowserType.toStr : BrowserType → String
  | .chromium => "chromium"
  | .firefox => "firefox"
  | .webkit => "webkit"
  | .camoufox => "camoufox"

/-- The `type` enum accepted by the `session_create` tool schema in
`index.ts` (`z.enum(["chromium", "firefox", "webkit", "camoufox"])`). -/
def sessionCreateTypeEnum : List String :=
  ["chromium", "firefox", "webkit", "camoufox"]

/-- `BrowserSession` from `types.ts`.  The live engine handles (browser,
context, page) and the console/network logs are external resources the
registry merely stores; they play no role in registry bookkeeping and are
abstracted away here. -/
structure BrowserSession where
  name : String
  type : BrowserType
  headless : Bool
  createdAt : Nat
  deriving DecidableEq, Repr

/-- The registry state: the `sessions : Map<string, BrowserSession>`. -/
abbrev SMState : Type := List (String × BrowserSession)

namespace SessionManager

/-- `SessionManager.create`: duplicate-name check, then an engine launch
selected by type (`chromium` / `webkit` / `camoufox` branches, which differ
only in which engine is launched), then the registry insert.  The declared
union member `firefox` has no launch branch and falls into the trailing
`else`, which throws before anything is inserted.  `now` stands for
`new Date()`. -/
def create (st : SMState) (name : String) (ty : BrowserType)
    (headless : Bool) (now : Nat) : Except String BrowserSession × SMState :=
  if (alLookup st name).isSome then
    (.error ("Session " ++ name ++ " already exists"), st)
  else
    match ty with
    | .chromium =>
        let s : BrowserSession := ⟨name, .chromium, headless, now⟩
        (.ok s, alUpdate st name s)
    | .webkit =>
        let s : BrowserSession := ⟨name, .webkit, headless, now⟩
        (.ok s, alUpdate st name s)
    | .camoufox =>
        let s : BrowserSession := ⟨name, .camoufox, headless, now⟩
        (.ok s, alUpdate st name s)
    | .firefox =>
        (.error ("Unknown browser type: " ++ BrowserType.toStr .firefox), st)

/-- `SessionManager.get`. -/
def get (st : SMState) (name : String) : Option BrowserSession :=
  alLookup st name

/-- `SessionManager.getOrThrow`. -/
def getOrThrow (st : SMState) (name : String) : Except String BrowserSession :=
  match alLookup st name with
  | some s => .ok s
  | none =>
      .error ("Session " ++ name
        ++ " not found. Create it first with session_create.")

/-- `SessionManager.destroy`: absent names fail; otherwise the entry is
deleted from the registry first, and only then are the context/browser
closed inside a `try` whose `catch` swallows every closing error, so the
result is the same whether or not closing fails (`closeFails`). -/
def destroy (st : SMState) (name : String) (closeFails : Bool) :
    Except String SMState :=
  match alLookup st name with
  | none => .error ("Session " ++ name ++ " not found")
  | some _ => .ok (alErase st name)

/-- One step of `SessionManager.destroyAll`: destroy each collected name,
ignoring per-name errors. -/
def destroyAllGo (names : List String) (st : SMState) : SMState :=
  match names with
  | [] => st
  | nm :: rest =>
      match destroy st nm false with
      | .ok st2 => destroyAllGo rest st2
      | .error _ => destroyAllGo rest st

/-- `SessionManager.destroyAll`: snapshot the keys, then best-effort
destroy each. -/
def destroyAll (st : SMState) : SMState :=
  destroyAllGo (st.map Prod.fst) st

end SessionManager

/-! ## Snapshot engine (`snapshot.ts`)

The ARIA tree arrives as newline-separated lines; each line is matched
against the regex `^(\s*-\s*)(\w+)(?:\s+"([^"]*)")?(.*)$`.  The regex is
modelled character-exactly below (`matchLine`): greedy whitespace, a dash,
greedy whitespace, one or more word characters, an optional quoted
accessible name preceded by at least one whitespace character, and the
rest of the line as the suffix.  An unmatched optional name group is
`undefined` (`none`); a matched empty quoted name is `some ""` — JS
truthiness collapses both, which `nameTruthy` captures. -/

/-- JS regex `\s` on line content (ASCII whitespace classes). -/
def isWsChar (c : Char) : Bool :=
  c = ' ' || c = '\t' || c = '\n' || c = '\r' || c = '\x0b' || c = '\x0c'

/-- JS regex `\w`. -/
def isWordChar (c : Char) : Bool :=
  ('a' ≤ c && c ≤ 'z') || ('A' ≤ c && c ≤ 'Z') ||
  ('0' ≤ c && c ≤ '9') || c = '_'

/-- JS regex `\d`. -/
def isDigitChar (c : Char) : Bool := '0' ≤ c && c ≤ '9'

/-- ASCII `toLowerCase` (the roles involved are ASCII). -/
def toLowerChar (c : Char) : Char :=
  if 'A' ≤ c && c ≤ 'Z' then Char.ofNat (c.toNat + 32) else c

/-- `role.toLowerCase()`. -/
def toLowerStr (s : String) : String := ⟨s.data.map toLowerChar⟩

/-- Whether `s` starts with the pattern `pat` (char-list version of JS
`String.prototype.startsWith`). -/
def startsWithList : List Char → List Char → Bool
  | _, [] => true
  | [], _ :: _ => false
  | c :: cs, p :: ps => c = p && startsWithList cs ps

/-- Whether `pat` occurs as a contiguous substring of `s`
(JS `String.prototype.includes`). -/
def listContainsSub (s pat : List Char) : Bool :=
  startsWithList s pat ||
    match s with
    | [] => false
    | _ :: rest => listContainsSub rest pat

/-- Result of the line regex: captures 1 (indentation prefix), 2 (role),
3 (optional quoted name) and 4 (suffix). -/
structure LineMatch where
  pre : String
  role : String
  name : Option String
  suffix : String
  deriving DecidableEq, Repr

/-- The optional name group `(?:\s+"([^"]*)")?`: at least one whitespace,
then a complete quoted run; if the closing quote is missing the group is
skipped entirely (regex backtracking). -/
def tryName (cs : List Char) : Option (List Char × List Char) :=
  let (ws, r1) := cs.span isWsChar
  if ws.isEmpty then none
  else
    match r1 with
    | '"' :: r2 =>
        let (nm, r3) := r2.span (fun c => !(c = '"'))
        match r3 with
        | '"' :: r4 => some (nm, r4)
        | _ => none
    | _ => none

/-- Match one line against `^(\s*-\s*)(\w+)(?:\s+"([^"]*)")?(.*)$`. -/
def matchLine (line : String) : Option LineMatch :=
  let (ws1, r1) := line.data.span isWsChar
  match r1 with
  | '-' :: r2 =>
      let (ws2, r3) := r2.span isWsChar
      let (roleCs, r4) := r3.span isWordChar
      if roleCs.isEmpty then none
      else
        let pre : String := ⟨ws1 ++ '-' :: ws2⟩
        match tryName r4 with
        | some (nm, r5) => some ⟨pre, ⟨roleCs⟩, some ⟨nm⟩, ⟨r5⟩⟩
        | none => some ⟨pre, ⟨roleCs⟩, none, ⟨r4⟩⟩
  | _ => none

/-- `getIndentLevel`: leading whitespace count, floor-divided by 2. -/
def getIndentLevel (line : String) : Nat :=
  (line.data.takeWhile isWsChar).length / 2

/-- JS truthiness of the captured name (`undefined` and `""` are falsy). -/
def nameTruthy : Option String → Bool
  | none => false
  | some s => !s.data.isEmpty

/-- `INTERACTIVE_ROLES` from `snapshot.ts`. -/
def INTERACTIVE_ROLES : List String :=
  ["button", "link", "textbox", "checkbox", "radio", "combobox", "listbox",
   "menuitem", "menuitemcheckbox", "menuitemradio", "option", "searchbox",
   "slider", "spinbutton", "switch", "tab", "treeitem"]

/-- `CONTENT_ROLES` from `snapshot.ts`. -/
def CONTENT_ROLES : List String :=
  ["heading", "cell", "gridcell", "columnheader", "rowheader", "listitem",
   "article", "region", "main", "navigation"]

/-- `STRUCTURAL_ROLES` from `snapshot.ts`. -/
def STRUCTURAL_ROLES : List String :=
  ["generic", "group", "list", "table", "row", "rowgroup", "grid",
   "treegrid", "menu", "menubar", "toolbar", "tablist", "tree",
   "directory", "document", "application", "presentation", "none"]

/-- One `RefMap` entry (`types.ts`): role, optional accessible name and
optional disambiguation index. -/
structure RefEntry where
  role : String
  name : Option String
  nth : Option Nat
  deriving DecidableEq, Repr

/-- The ref map, keyed by ref tokens `e<N>` in insertion order. -/
abbrev RefMap : Type := List (String × RefEntry)

/-- `RoleNameTracker` state from `snapshot.ts`. -/
structure RoleNameTracker where
  counts : List (String × Nat)
  refsByKey : List (String × List String)
  deriving DecidableEq, Repr

def emptyTracker : RoleNameTracker := ⟨[], []⟩

/-- `tracker.getKey`: `` `${role}:${name ?? ''}` ``. -/
def getKey (role : String) (name : Option String) : String :=
  role ++ ":" ++ name.getD ""

/-- `tracker.getNextIndex`: current count (the candidate `nth`), bumping. -/
def getNextIndex (t : RoleNameTracker) (role : String)
    (name : Option String) : Nat × RoleNameTracker :=
  let key := getKey role name
  let current := (alLookup t.counts key).getD 0
  (current, { t with counts := alUpdate t.counts key (current + 1) })

/-- `tracker.trackRef`: append the ref to the list of its key. -/
def trackRef (t : RoleNameTracker) (role : String) (name : Option String)
    (ref : String) : RoleNameTracker :=
  let key := getKey role name
  let refs := (alLookup t.refsByKey key).getD []
  { t with refsByKey := alUpdate t.refsByKey key (refs ++ [ref]) }

/-- Membership in `tracker.getDuplicateKeys()`: more than one tracked ref. -/
def isDuplicateKey (t : RoleNameTracker) (key : String) : Bool :=
  1 < ((alLookup t.refsByKey key).getD []).length

/-- `removeNthFromNonDuplicates`: drop `nth` from every ref whose
(role, name) key is not a duplicate key. -/
def removeNthFromNonDuplicates (refs : RefMap) (t : RoleNameTracker) :
    RefMap :=
  refs.map (fun p =>
    if isDuplicateKey t (getKey p.2.role p.2.name) then p
    else (p.1, { p.2 with nth := none }))

/-- The snapshot filter configuration (`SnapshotOptions`); the `selector`
option only scopes which subtree is snapshotted before line processing and
plays no role in `processAriaTree`. -/
structure SnapshotOptions where
  interactive : Bool := false
  maxDepth : Option Nat := none
  compact : Bool := false
  deriving Repr

/-- The mutable state threaded through a snapshot call: the module-level
ref counter (reset per call) plus the `refs` and tracker accumulators. -/
structure SnapState where
  refCounter : Nat
  refs : RefMap
  tracker : RoleNameTracker

def initSnapState : SnapState := ⟨0, [], emptyTracker⟩

/-- `processLine` from `snapshot.ts`: depth filter, regex match, role
classification, interactive/compact filters, ref assignment.  Appending the
suffix unconditionally coincides with the source line
`if (suffix) enhanced += suffix`, since appending `""` is the identity. -/
def processLine (line : String) (options : SnapshotOptions)
    (st : SnapState) : Option String × SnapState :=
  let depth := getIndentLevel line
  let tooDeep :=
    match options.maxDepth with
    | some md => decide (depth > md)
    | none => false
  if tooDeep then (none, st)
  else
    match matchLine line with
    | none =>
        if options.interactive then (none, st) else (some line, st)
    | some m =>
        let roleLower := toLowerStr m.role
        if startsWithList m.role.data ['/'] then (some line, st)
        else
          let isInteractive := INTERACTIVE_ROLES.contains roleLower
          let isContent := CONTENT_ROLES.contains roleLower
          let isStructural := STRUCTURAL_ROLES.contains roleLower
          if options.interactive && !isInteractive then (none, st)
          else if options.compact && isStructural && !nameTruthy m.name then
            (none, st)
          else if isInteractive || (isContent && nameTruthy m.name) then
            let refN := st.refCounter + 1
            let ref := "e" ++ toString refN
            let (nth, tr1) := getNextIndex st.tracker roleLower m.name
            let tr2 := trackRef tr1 roleLower m.name ref
            let refs2 := alUpdate st.refs ref ⟨roleLower, m.name, some nth⟩
            let enhanced := m.pre ++ m.role
              ++ (if nameTruthy m.name
                  then " \"" ++ m.name.getD "" ++ "\"" else "")
              ++ " [ref=" ++ ref ++ "]"
              ++ (if nth > 0 then " [nth=" ++ toString nth ++ "]" else "")
              ++ m.suffix
            (some enhanced, ⟨refN, refs2, tr2⟩)
          else (some line, st)

/-- One iteration of the interactive-only fast path in `processAriaTree`:
unparseable lines are skipped, non-interactive roles are skipped, and the
emitted line is rebuilt at depth 0 (literal `- ` prefix); the suffix is
kept only when non-empty and containing `[`.  Note this path never
consults `maxDepth`. -/
def processInteractiveLine (line : String) (st : SnapState) :
    Option String × SnapState :=
  match matchLine line with
  | none => (none, st)
  | some m =>
      let roleLower := toLowerStr m.role
      if INTERACTIVE_ROLES.contains roleLower then
        let refN := st.refCounter + 1
        let ref := "e" ++ toString refN
        let (nth, tr1) := getNextIndex st.tracker roleLower m.name
        let tr2 := trackRef tr1 roleLower m.name ref
        let refs2 := alUpdate st.refs ref ⟨roleLower, m.name, some nth⟩
        let enhanced := "- " ++ m.role
          ++ (if nameTruthy m.name
              then " \"" ++ m.name.getD "" ++ "\"" else "")
          ++ " [ref=" ++ ref ++ "]"
          ++ (if nth > 0 then " [nth=" ++ toString nth ++ "]" else "")
          ++ (if !m.suffix.data.isEmpty
                && listContainsSub m.suffix.data ['[']
              then m.suffix else "")
        (some enhanced, ⟨refN, refs2, tr2⟩)
      else (none, st)

/-- Split on newline characters (JS `tree.split('\n')`): every maximal
newline-free run, including empty runs at the ends. -/
def splitLinesGo : List Char → List Char → List String
  | [], acc => [⟨acc.reverse⟩]
  | '\n' :: rest, acc => ⟨acc.reverse⟩ :: splitLinesGo rest []
  | c :: rest, acc => splitLinesGo rest (c :: acc)

def splitLines (s : String) : List String := splitLinesGo s.data []

/-- Join with newlines (JS `result.join('\n')`). -/
def joinLines : List String → String
  | [] => ""
  | [l] => l
  | l :: rest => l ++ "\n" ++ joinLines rest

/-- `line.endsWith(':')`. -/
def endsWithColon (l : List Char) : Bool :=
  match l.getLast? with
  | some c => c = ':'
  | none => false

/-- The inner forward scan of `compactTree`: does some strictly deeper line
before indentation returns to `ind` contain `[ref=`? -/
def hasRelevantChild (ind : Nat) : List String → Bool
  | [] => false
  | l :: rest =>
      if getIndentLevel l ≤ ind then false
      else if listContainsSub l.data ['[', 'r', 'e', 'f', '='] then true
      else hasRelevantChild ind rest

/-- The per-line keep test of `compactTree`. -/
def compactGo : List String → List String
  | [] => []
  | line :: rest =>
      if listContainsSub line.data ['[', 'r', 'e', 'f', '='] then
        line :: compactGo rest
      else if listContainsSub line.data [':'] && !endsWithColon line.data then
        line :: compactGo rest
      else if hasRelevantChild (getIndentLevel line) rest then
        line :: compactGo rest
      else compactGo rest

/-- `compactTree` from `snapshot.ts`. -/
def compactTree (tree : String) : String :=
  joinLines (compactGo (splitLines tree))

/-- Fold a line processor over the lines, accumulating kept lines. -/
def foldLines (f : String → SnapState → Option String × SnapState)
    (lines : List String) (acc : List String) (st : SnapState) :
    List String × SnapState :=
  match lines with
  | [] => (acc, st)
  | line :: rest =>
      match f line st with
      | (some l, st2) => foldLines f rest (acc ++ [l]) st2
      | (none, st2) => foldLines f rest acc st2

/-- `processAriaTree` from `snapshot.ts`, returning the annotated tree and
the ref map (the source mutates a `refs` object passed in). -/
def processAriaTree (ariaTree : String) (options : SnapshotOptions) :
    String × RefMap :=
  let lines := splitLines ariaTree
  if options.interactive then
    let (result, st) :=
      foldLines processInteractiveLine lines [] initSnapState
    let refs := removeNthFromNonDuplicates st.refs st.tracker
    let joined := joinLines result
    (if joined.data.isEmpty then "(no interactive elements)" else joined,
     refs)
  else
    let (result, st) :=
      foldLines (fun l s => processLine l options s) lines [] initSnapState
    let refs := removeNthFromNonDuplicates st.refs st.tracker
    if options.compact then
      (compactTree (joinLines result), refs)
    else
      (joinLines result, refs)

/-! ## Ref tokens and locator resolution (`snapshot.ts` / `index.ts`) -/

/-- `/^e\d+$/`. -/
def isBareERef : List Char → Bool
  | 'e' :: rest => !rest.isEmpty && rest.all isDigitChar
  | _ => false

/-- `parseRef` from `snapshot.ts`: any `@`-prefixed string (stripped), any
`ref=`-prefixed string (stripped), or a bare `e<digits>` token. -/
def parseRef (arg : String) : Option String :=
  if startsWithList arg.data ['@'] then some ⟨arg.data.drop 1⟩
  else if startsWithList arg.data ['r', 'e', 'f', '='] then
    some ⟨arg.data.drop 4⟩
  else if isBareERef arg.data then some arg
  else none

/-- `isRef` from `snapshot.ts`. -/
def isRef (selector : String) : Bool := (parseRef selector).isSome

/-- The locators an interaction tool can end up with: a role-based locator
(optionally exact-name-filtered, optionally narrowed by `.nth`), or a plain
page locator built from the raw selector string. -/
inductive LocatorModel
  | css (selector : String)
  | byRole (role : String) (exactName : Option String)
  | nthOf (base : LocatorModel) (idx : Nat)
  deriving DecidableEq, Repr

/-- `getLocatorFromRef` from `snapshot.ts`: parse the token, look it up in
the ref map, build `getByRole` (with `exact: true` name when the stored
name is truthy), and narrow with `.nth` when the entry carries one. -/
def getLocatorFromRef (refMap : RefMap) (selector : String) :
    Option LocatorModel :=
  match parseRef selector with
  | none => none
  | some ref =>
      match alLookup refMap ref with
      | none => none
      | some rd =>
          let base :=
            if nameTruthy rd.name then LocatorModel.byRole rd.role rd.name
            else LocatorModel.byRole rd.role none
          match rd.nth with
          | some i => some (.nthOf base i)
          | none => some base

/-- `getLocator` from `index.ts`: ref tokens are resolved through the
ref map of the session and fail hard when absent; everything else becomes a
plain `page.locator(selector)`. -/
def getLocator (refMap : RefMap) (selector : String) :
    Except String LocatorModel :=
  if isRef selector then
    match getLocatorFromRef refMap selector with
    | none =>
        .error ("Ref " ++ selector
          ++ " not found. Run browser_snapshot first to get current refs.")
    | some loc => .ok loc
  else .ok (.css selector)

/-- The ref-token string forms named by the spec: `@e<N>`, `ref=e<N>`, and
bare `e<N>`.  Refinement definition following the wording of the spec, for
comparison with `parseRef`, which accepts any `@`- or `ref=`-prefixed
string. -/
def specRefTokenForm (s : String) : Bool :=
  (startsWithList s.data ['@'] && isBareERef (s.data.drop 1)) ||
  (startsWithList s.data ['r', 'e', 'f', '='] && isBareERef (s.data.drop 4))
    || isBareERef s.data

/-! ## Interleaving model for concurrent `create` calls (`sessions.ts`)

The process is single-threaded and cooperative: an operation only yields at
`await` boundaries.  Inside `SessionManager.create`, the duplicate-name
check is synchronous, but the engine launch (`await chromium.launch`,
`await browser.newContext()`, `await context.newPage()`) suspends between
the check and the `sessions.set` insert.  A `create` call is therefore a
small state machine: `ready` (about to run the check), `launching`
(passed the check, suspended in the launch region), `finished`.  A
schedule decides which of two concurrent calls advances at each step. -/

inductive CreatePC
  | ready
  | launching
  | finished (res : Except String Unit)

/-- Whether a create call has completed successfully. -/
def CreatePC.succeeded : CreatePC → Bool
  | .finished (.ok _) => true
  | _ => false

structure CreateTask where
  name : String
  ty : BrowserType
  headless : Bool
  pc : CreatePC

/-- Advance one create call by one scheduler slice.  From `ready` it runs
the synchronous prefix: the existence check (failing immediately on a
duplicate), and for an unknown browser type the synchronous throw; a known
type then suspends into the launch region.  From `launching` it resumes
after the launch and performs the insert. -/
def stepCreate (reg : SMState) (t : CreateTask) (now : Nat) :
    SMState × CreateTask :=
  match t.pc with
  | .ready =>
      if (alLookup reg t.name).isSome then
        (reg, { t with
          pc := CreatePC.finished
            (Except.error ("Session " ++ t.name ++ " already exists")) })
      else
        match t.ty with
        | .firefox =>
            (reg, { t with
              pc := CreatePC.finished
                (Except.error
                  ("Unknown browser type: " ++ BrowserType.toStr .firefox)) })
        | _ => (reg, { t with pc := .launching })
  | .launching =>
      let s : BrowserSession := ⟨t.name, t.ty, t.headless, now⟩
      (alUpdate reg t.name s, { t with pc := .finished (.ok ()) })
  | .finished _ => (reg, t)

/-- Two concurrent `create` calls plus the shared registry. -/
structure TwoCreates where
  reg : SMState
  t0 : CreateTask
  t1 : CreateTask

/-- Run a schedule: `false` advances the first call, `true` the second. -/
def runSched (sched : List Bool) (st : TwoCreates) (now : Nat) :
    TwoCreates :=
  match sched with
  | [] => st
  | b :: rest =>
      if b then
        let (reg2, t1') := stepCreate st.reg st.t1 now
        runSched rest ⟨reg2, st.t0, t1'⟩ now
      else
        let (reg2, t0') := stepCreate st.reg st.t0 now
        runSched rest ⟨reg2, t0', st.t1⟩ now

/-- Two fresh concurrent `create` calls for the same name `a`. -/
def twoCreatesSameName : TwoCreates :=
  ⟨[], ⟨"a", .chromium, true, .ready⟩, ⟨"a", .chromium, true, .ready⟩⟩

theorem alLookup_alUpdate_self {α : Type} (l : List (String × α))
    (k : String) (v : α) : alLookup (alUpdate l k v) k = some v := by
  induction l with
  | nil => simp [alUpdate, alLookup]
  | cons hd tl ih =>
      obtain ⟨k2, v2⟩ := hd
      by_cases h : k2 = k
      · simp [alUpdate, alLookup, h]
      · simp [alUpdate, alLookup, h, ih]

theorem alLookup_alErase_self {α : Type} (l : List (String × α))
    (k : String) : alLookup (alErase l k) k = none := by
  induction l with
  | nil => rfl
  | cons hd tl ih =>
      obtain ⟨k2, v2⟩ := hd
      by_cases h : k2 = k
      · simpa [alErase, h] using ih
      · simp [alErase, alLookup, h] at ih ⊢
        exact ih

theorem replaceDotDot_cons_ne (c : Char) (rest : List Char) (h : ¬ c = '.') :
    replaceDotDot (c :: rest) = c :: replaceDotDot rest :=
  replaceDotDot.eq_3 c rest (fun _ h1 _ => h h1)

theorem replaceSeps_no_sep (l : List Char) :
    ∀ c ∈ replaceSeps l, isSep c = false := by
  intro c hc
  simp only [replaceSeps, List.mem_map] at hc
  obtain ⟨a, _, ha⟩ := hc
  subst ha
  by_cases h : a = '/' ∨ a = '\\'
  · simp [h, isSep]
  · push_neg at h
    simp [h, isSep, h.1, h.2]

theorem replaceDotDot_no_sep (l : List Char)
    (hl : ∀ c ∈ l, isSep c = false) :
    ∀ c ∈ replaceDotDot l, isSep c = false := by
  induction l using replaceDotDot.induct with
  | case1 => intro c hc; rw [replaceDotDot.eq_1] at hc; cases hc
  | case2 rest ih =>
      rw [replaceDotDot.eq_2]
      intro c hc
      rcases List.mem_cons.mp hc with h | h
      · subst h; decide
      · exact ih (fun d hd => hl d (by simp [hd])) c h
  | case3 c rest hg ih =>
      rw [replaceDotDot.eq_3 c rest hg]
      intro d hd
      rcases List.mem_cons.mp hd with h | h
      · subst h; exact hl d (by simp)
      · exact ih (fun e he => hl e (by simp [he])) d h

theorem hasDotDot_cons_ne (c : Char) (xs : List Char) (h : ¬ c = '.') :
    hasDotDot (c :: xs) = hasDotDot xs := by
  cases xs with
  | nil => rfl
  | cons y ys => simp [hasDotDot, h]

theorem replaceDotDot_head_ne_dot (l : List Char)
    (h : ∀ d ds, l = d :: ds → ¬ d = '.') :
    ∀ e es, replaceDotDot l = e :: es → ¬ e = '.' := by
  cases l with
  | nil =>
      intro e es he
      rw [replaceDotDot.eq_1] at he
      cases he
  | cons d ds =>
      have hd : ¬ d = '.' := h d ds rfl
      rw [replaceDotDot_cons_ne d ds hd]
      intro e es he
      injection he with h1 _
      subst h1
      exact hd

theorem replaceDotDot_no_dotdot (l : List Char) :
    hasDotDot (replaceDotDot l) = false := by
  induction l using replaceDotDot.induct with
  | case1 => rfl
  | case2 rest ih =>
      rw [replaceDotDot.eq_2, hasDotDot_cons_ne _ _ (by decide)]
      exact ih
  | case3 c rest hg ih =>
      rw [replaceDotDot.eq_3 c rest hg]
      by_cases hc : c = '.'
      · subst hc
        -- `rest` cannot start with a dot, else the `..` branch applied
        have hrest : ∀ d ds, rest = d :: ds → ¬ d = '.' := by
          intro d ds hrw hd
          subst hrw
          subst hd
          exact hg ds rfl rfl
        cases hrd : replaceDotDot rest with
        | nil => simp [hasDotDot]
        | cons e es =>
            have he : ¬ e = '.' :=
              replaceDotDot_head_ne_dot rest hrest e es hrd
            rw [hrd] at ih
            simp only [hasDotDot, he]
            simpa [he] using ih
      · rw [hasDotDot_cons_ne c _ hc]
        exact ih

theorem alLookup_alErase_ne {α : Type} (l : List (String × α))
    (m n : String) (h : m ≠ n) :
    alLookup (alErase l m) n = alLookup l n := by
  induction l with
  | nil => rfl
  | cons hd tl ih =>
      obtain ⟨k2, v2⟩ := hd
      by_cases hk : k2 = m
      · subst hk
        simpa [alErase, alLookup, h, List.filter] using ih
      · by_cases hn : k2 = n
        · subst hn
          simp [alErase, alLookup, hk]
        · simp [alErase, alLookup, hk, hn, ih]
          simpa [alErase] using ih

theorem alLookup_alErase_none {α : Type} (l : List (String × α))
    (m n : String) (h : alLookup l n = none) :
    alLookup (alErase l m) n = none := by
  by_cases hm : m = n
  · subst hm
    exact alLookup_alErase_self l m
  · rw [alLookup_alErase_ne l m n hm]
    exact h

theorem alLookup_mem_keys {α : Type} (l : List (String × α)) (n : String)
    (v : α) (h : alLookup l n = some v) : n ∈ l.map Prod.fst := by
  induction l with
  | nil => cases h
  | cons hd tl ih =>
      obtain ⟨k2, v2⟩ := hd
      by_cases hk : k2 = n
      · simp [hk]
      · simp only [alLookup, hk, if_false] at h
        simp [ih h]

theorem destroyAllGo_none_preserved (names : List String) (st : SMState)
    (n : String) (h : alLookup st n = none) :
    alLookup (SessionManager.destroyAllGo names st) n = none := by
  induction names generalizing st with
  | nil => simpa [SessionManager.destroyAllGo] using h
  | cons nm rest ih =>
      simp only [SessionManager.destroyAllGo]
      cases hdm : SessionManager.destroy st nm false with
      | ok st2 =>
          have : st2 = alErase st nm := by
            unfold SessionManager.destroy at hdm
            cases hl : alLookup st nm with
            | none => rw [hl] at hdm; cases hdm
            | some s => rw [hl] at hdm; cases hdm; rfl
          subst this
          exact ih _ (alLookup_alErase_none st nm n h)
      | error e => exact ih _ h

theorem destroyAllGo_mem_erased (names : List String) (st : SMState)
    (n : String) (h : n ∈ names) :
    alLookup (SessionManager.destroyAllGo names st) n = none := by
  induction names generalizing st with
  | nil => cases h
  | cons nm rest ih =>
      simp only [SessionManager.destroyAllGo]
      rcases List.mem_cons.mp h with h1 | h1
      · subst h1
        cases hdm : SessionManager.destroy st n false with
        | ok st2 =>
            have : st2 = alErase st n := by
              unfold SessionManager.destroy at hdm
              cases hl : alLookup st n with
              | none => rw [hl] at hdm; cases hdm
              | some s => rw [hl] at hdm; cases hdm; rfl
            subst this
            exact destroyAllGo_none_preserved rest _ n
              (alLookup_alErase_self st n)
        | error e =>
            have hnone : alLookup st n = none := by
              unfold SessionManager.destroy at hdm
              cases hl : alLookup st n with
              | none => rfl
              | some s => rw [hl] at hdm; cases hdm
            exact destroyAllGo_none_preserved rest _ n hnone
      · cases hdm : SessionManager.destroy st nm false with
        | ok st2 => exact ih st2 h1
        | error e => exact ih st h1

theorem create_succeeds_of_absent (st : SMState) (n : String)
    (ty : BrowserType) (hd : Bool) (now : Nat)
    (hnone : alLookup st n = none) (hty : ty ≠ .firefox) :
    ∃ s2 st3, SessionManager.create st n ty hd now = (.ok s2, st3) := by
  cases ty with
  | chromium =>
      exact ⟨⟨n, .chromium, hd, now⟩, alUpdate st n ⟨n, .chromium, hd, now⟩,
        by simp [SessionManager.create, hnone]⟩
  | webkit =>
      exact ⟨⟨n, .webkit, hd, now⟩, alUpdate st n ⟨n, .webkit, hd, now⟩,
        by simp [SessionManager.create, hnone]⟩
  | camoufox =>
      exact ⟨⟨n, .camoufox, hd, now⟩, alUpdate st n ⟨n, .camoufox, hd, now⟩,
        by simp [SessionManager.create, hnone]⟩
  | firefox => exact absurd rfl hty

theorem lifecycle_after_insert (st : SMState) (n : String)
    (s : BrowserSession) (ty : BrowserType) (hty : ty ≠ .firefox)
    (hd : Bool) (now : Nat) :
    SessionManager.get (alUpdate st n s) n = some s ∧
    (∀ ty' hd' now', SessionManager.create (alUpdate st n s) n ty' hd' now'
        = (.error ("Session " ++ n ++ " already exists"), alUpdate st n s)) ∧
    (∀ cf st'', SessionManager.destroy (alUpdate st n s) n cf = .ok st'' →
        SessionManager.get st'' n = none ∧
        ∃ s2 st3, SessionManager.create st'' n ty hd now = (.ok s2, st3)) ∧
    SessionManager.get (SessionManager.destroyAll (alUpdate st n s)) n
        = none ∧
    (∃ s2 st3,
      SessionManager.create (SessionManager.destroyAll (alUpdate st n s))
        n ty hd now = (.ok s2, st3)) := by
  have hlk : alLookup (alUpdate st n s) n = some s :=
    alLookup_alUpdate_self st n s
  refine ⟨hlk, ?_, ?_, ?_, ?_⟩
  · intro ty' hd' now'
    simp [SessionManager.create, hlk]
  · intro cf st'' hok
    unfold SessionManager.destroy at hok
    rw [hlk] at hok
    cases hok
    refine ⟨alLookup_alErase_self _ n, ?_⟩
    exact create_succeeds_of_absent _ n ty hd now
      (alLookup_alErase_self _ n) hty
  · exact destroyAllGo_mem_erased _ _ n
      (alLookup_mem_keys _ n s hlk)
  · refine create_succeeds_of_absent _ n ty hd now ?_ hty
    exact destroyAllGo_mem_erased _ _ n (alLookup_mem_keys _ n s hlk)

/-- C3: after `create(n, …)` succeeds, `get(n)` returns a session named `n`;
a second `create(n, …)` fails with the duplicate-session error (leaving the
registry unchanged) until `destroy(n)` or `destroyAll()` runs, after which
`n` is free again and a fresh `create(n, …)` succeeds. -/
theorem session_name_lifecycle (st : SMState) (n : String)
    (ty : BrowserType) (hd : Bool) (now : Nat) (s : BrowserSession)
    (st' : SMState)
    (h : SessionManager.create st n ty hd now = (.ok s, st')) :
    SessionManager.get st' n = some s ∧ s.name = n ∧
    (∀ ty' hd' now', SessionManager.create st' n ty' hd' now'
        = (.error ("Session " ++ n ++ " already exists"), st')) ∧
    (∀ cf st'', SessionManager.destroy st' n cf = .ok st'' →
        SessionManager.get st'' n = none ∧
        ∃ s2 st3, SessionManager.create st'' n ty hd now = (.ok s2, st3)) ∧
    SessionManager.get (SessionManager.destroyAll st') n = none ∧
    (∃ s2 st3,
      SessionManager.create (SessionManager.destroyAll st') n ty hd now
        = (.ok s2, st3)) := by
  cases hlk : alLookup st n with
  | some s0 => simp [SessionManager.create, hlk] at h
  | none =>
      cases ty with
      | firefox => simp [SessionManager.create, hlk] at h
      | chromium =>
          simp only [SessionManager.create, hlk, Option.isSome_none,
            Bool.false_eq_true, if_false, Prod.mk.injEq,
            Except.ok.injEq] at h
          obtain ⟨hs, hst⟩ := h
          subst hs
          subst hst
          exact ⟨(lifecycle_after_insert st n _ .chromium (by simp)
              hd now).1, rfl,
            (lifecycle_after_insert st n _ .chromium (by simp) hd now).2⟩
      | webkit =>
          simp only [SessionManager.create, hlk, Option.isSome_none,
            Bool.false_eq_true, if_false, Prod.mk.injEq,
            Except.ok.injEq] at h
          obtain ⟨hs, hst⟩ := h
          subst hs
          subst hst
          exact ⟨(lifecycle_after_insert st n _ .webkit (by simp)
              hd now).1, rfl,
            (lifecycle_after_insert st n _ .webkit (by simp) hd now).2⟩
      | camoufox =>
          simp only [SessionManager.create, hlk, Option.isSome_none,
            Bool.false_eq_true, if_false, Prod.mk.injEq,
            Except.ok.injEq] at h
          obtain ⟨hs, hst⟩ := h
          subst hs
          subst hst
          exact ⟨(lifecycle_after_insert st n _ .camoufox (by simp)
              hd now).1, rfl,
            (lifecycle_after_insert st n _ .camoufox (by simp) hd now).2⟩

/-- Witness for `session_name_lifecycle` on an empty registry. -/
theorem session_name_lifecycle_witness :
    SessionManager.get [("main", ⟨"main", .chromium, true, 0⟩)] "main"
      = some ⟨"main", .chromium, true, 0⟩ :=
  (session_name_lifecycle [] "main" .chromium true 0
    ⟨"main", .chromium, true, 0⟩ [("main", ⟨"main", .chromium, true, 0⟩)]
    rfl).1

/-- C6: `destroy(name)` fails with the session-not-found error exactly when
`name` is not live; when live, the registry entry is removed and any error
while closing the underlying resources is swallowed (`cf` says whether the
close failed), so after a successful `destroy`, `get(name)` is absent. -/
theorem destroy_error_iff_absent (st : SMState) (n : String) (cf : Bool) :
    (alLookup st n = none →
      SessionManager.destroy st n cf
        = .error ("Session " ++ n ++ " not found")) ∧
    ((∃ e, SessionManager.destroy st n cf = .error e) →
      alLookup st n = none) ∧
    (∀ st', SessionManager.destroy st n cf = .ok st' →
      SessionManager.get st' n = none) := by
  refine ⟨?_, ?_, ?_⟩
  · intro hl
    simp [SessionManager.destroy, hl]
  · rintro ⟨e, he⟩
    unfold SessionManager.destroy at he
    cases hl : alLookup st n with
    | none => rfl
    | some s => rw [hl] at he; cases he
  · intro st' hok
    unfold SessionManager.destroy at hok
    cases hl : alLookup st n with
    | none => rw [hl] at hok; cases hok
    | some s =>
        rw [hl] at hok
        cases hok
        exact alLookup_alErase_self st n

/-- Witness for `destroy_error_iff_absent`: destroying a live session whose
close fails still leaves the name absent. -/
theorem destroy_error_iff_absent_witness :
    SessionManager.get
      (alErase [("a", ⟨"a", .chromium, true, 0⟩)] "a") "a" = none :=
  (destroy_error_iff_absent [("a", ⟨"a", .chromium, true, 0⟩)] "a" true).2.2
    _ rfl

/-- C10: for a name that is not live, `create(name, firefox, headless)`
fails with the unknown-browser-type error and leaves the registry
unchanged, even though `firefox` is a member of the declared `BrowserType`
union and of the `session_create` tool schema enum. -/
theorem create_firefox_unknown_browser (st : SMState) (n : String)
    (hd : Bool) (now : Nat) (h : alLookup st n = none) :
    SessionManager.create st n .firefox hd now
      = (.error "Unknown browser type: firefox", st) ∧
    "firefox" ∈ sessionCreateTypeEnum ∧
    BrowserType.firefox.toStr = "firefox" := by
  have hsome : (alLookup st n).isSome = false := by rw [h]; rfl
  refine ⟨?_, by simp [sessionCreateTypeEnum], rfl⟩
  have hmsg : "Unknown browser type: " ++ BrowserType.toStr .firefox
      = "Unknown browser type: firefox" := rfl
  simp [SessionManager.create, hsome, hmsg]

/-- Witness for `create_firefox_unknown_browser` on an empty registry. -/
theorem create_firefox_unknown_browser_witness :
    SessionManager.create [] "main" .firefox true 0
      = (.error "Unknown browser type: firefox", []) ∧
    "firefox" ∈ sessionCreateTypeEnum ∧
    BrowserType.firefox.toStr = "firefox" :=
  create_firefox_unknown_browser [] "main" true 0 rfl

/-- C5: for every input string the sanitized segment used in storage paths
contains no path separator and no `..` sequence; in particular a requested
domain of `"../../etc"` is stored under the literal sanitized segment
`"____etc"` inside the sessions root. -/
theorem sanitized_segment_never_escapes_root :
    (∀ s : String, (∀ c ∈ (sanitizeName s).data, c ≠ '/' ∧ c ≠ '\\') ∧
      hasDotDot (sanitizeName s).data = false) ∧
    sanitizeName "../../etc" = "____etc" ∧
    getSessionPath "/home/user" "../../etc" "default"
      = "/home/user/.browserplex/sessions/____etc/default.json" := by
  refine ⟨fun s => ⟨fun c hc => ?_, ?_⟩, rfl, rfl⟩
  · have hsep : isSep c = false := by
      refine replaceDotDot_no_sep _ (replaceSeps_no_sep s.data) c ?_
      simpa [sanitizeName] using hc
    constructor
    · intro h
      subst h
      simp [isSep] at hsep
    · intro h
      subst h
      simp [isSep] at hsep
  · simpa [sanitizeName] using replaceDotDot_no_dotdot (replaceSeps s.data)

/-- Witness for `sanitized_segment_never_escapes_root`, instantiating the
universally quantified part at a concrete string and character. -/
theorem sanitized_segment_never_escapes_root_witness :
    ('a' ≠ '/' ∧ 'a' ≠ '\\') ∧
      hasDotDot (sanitizeName "a/../b").data = false :=
  ⟨(sanitized_segment_never_escapes_root.1 "a/../b").1 'a' (by decide),
    (sanitized_segment_never_escapes_root.1 "a/../b").2⟩

/-- C4: starting from a state with no lock file for domain `d`,
`acquireLock` returns `true` and creates the lock record; an immediately
following `acquireLock` on the same domain returns `false` and leaves the
fresh lock (and the whole state) unmodified; and after `releaseLock` by the
owning process, `isLocked` is `false`. -/
theorem acquire_twice_release_lock (st : LockState) (d : String)
    (now pid : Nat) (h : alLookup st (lockKey d) = none) :
    acquireLock st d now pid
        = (true, alUpdate st (lockKey d) ⟨d, now, pid⟩) ∧
    acquireLock (alUpdate st (lockKey d) ⟨d, now, pid⟩) d now pid
        = (false, alUpdate st (lockKey d) ⟨d, now, pid⟩) ∧
    isLocked (releaseLock (alUpdate st (lockKey d) ⟨d, now, pid⟩) d pid)
        d now = false := by
  refine ⟨by simp [acquireLock, h], ?_, ?_⟩
  · simp [acquireLock, alLookup_alUpdate_self, LOCK_TIMEOUT_MS]
  · simp [releaseLock, alLookup_alUpdate_self, isLocked,
      alLookup_alErase_self]

/-- Witness for `acquire_twice_release_lock` on an empty filesystem. -/
theorem acquire_twice_release_lock_witness :
    acquireLock [] "example.com" 1000 42
        = (true, alUpdate [] (lockKey "example.com")
            ⟨"example.com", 1000, 42⟩) ∧
    acquireLock (alUpdate [] (lockKey "example.com")
          ⟨"example.com", 1000, 42⟩) "example.com" 1000 42
        = (false, alUpdate [] (lockKey "example.com")
            ⟨"example.com", 1000, 42⟩) ∧
    isLocked (releaseLock (alUpdate [] (lockKey "example.com")
          ⟨"example.com", 1000, 42⟩) "example.com" 42) "example.com" 1000
        = false :=
  acquire_twice_release_lock [] "example.com" 1000 42 rfl

/-- C1: each assigned ref carries the occurrence index of its (role, name)
pair in document order as candidate `nth`; after the walk, every ref whose
pair was tracked exactly once has its `nth` removed.  Concretely, two
buttons named Submit and one named Cancel yield `nth = 0` / `nth = 1` on
the Submit refs and no `nth` on the Cancel ref. -/
theorem nth_disambiguation_only_for_duplicates :
    (∀ (refs : RefMap) (t : RoleNameTracker) (r : String) (d : RefEntry),
      (r, d) ∈ removeNthFromNonDuplicates refs t →
      ((alLookup t.refsByKey (getKey d.role d.name)).getD []).length = 1 →
      d.nth = none) ∧
    processAriaTree
        "- button \"Submit\"\n- button \"Submit\"\n- button \"Cancel\"" {}
      = ("- button \"Submit\" [ref=e1]\n- button \"Submit\" [ref=e2] [nth=1]\n- button \"Cancel\" [ref=e3]",
         [("e1", ⟨"button", some "Submit", some 0⟩),
          ("e2", ⟨"button", some "Submit", some 1⟩),
          ("e3", ⟨"button", some "Cancel", none⟩)]) := by
  refine ⟨?_, rfl⟩
  intro refs t r d hmem hlen
  simp only [removeNthFromNonDuplicates, List.mem_map] at hmem
  obtain ⟨⟨r0, d0⟩, hmem0, heq⟩ := hmem
  by_cases hdup : isDuplicateKey t (getKey d0.role d0.name)
  · rw [if_pos hdup] at heq
    cases heq
    simp [isDuplicateKey, hlen] at hdup
  · rw [if_neg hdup] at heq
    cases heq
    rfl

/-- Witness for `nth_disambiguation_only_for_duplicates`, applying the
universally quantified post-pass property to a concrete singleton map. -/
theorem nth_disambiguation_only_for_duplicates_witness :
    (("e9", (⟨"button", some "Cancel", none⟩ : RefEntry)) ∈
        removeNthFromNonDuplicates
          [("e9", ⟨"button", some "Cancel", some 0⟩)]
          ⟨[("button:Cancel", 1)], [("button:Cancel", ["e9"])]⟩) ∧
    RefEntry.nth ⟨"button", some "Cancel", none⟩ = none :=
  ⟨by decide,
    nth_disambiguation_only_for_duplicates.1
      [("e9", ⟨"button", some "Cancel", some 0⟩)]
      ⟨[("button:Cancel", 1)], [("button:Cancel", ["e9"])]⟩
      "e9" ⟨"button", some "Cancel", none⟩ (by decide) (by decide)⟩

/-- C2: a selector that parses as a ref token but is absent from the
current ref map of the session makes `getLocator` fail with the ref-not-found
error (advising a re-snapshot); no CSS fallback is attempted. -/
theorem ref_not_found_no_fallback (refMap : RefMap) (sel r : String)
    (hp : parseRef sel = some r) (habs : alLookup refMap r = none) :
    getLocator refMap sel
      = .error ("Ref " ++ sel
          ++ " not found. Run browser_snapshot first to get current refs.")
    := by
  have hr : isRef sel = true := by simp [isRef, hp]
  simp [getLocator, hr, getLocatorFromRef, hp, habs]

/-- Witness for `ref_not_found_no_fallback` at `"@e5"` on an empty map. -/
theorem ref_not_found_no_fallback_witness :
    getLocator [] "@e5"
      = .error
        "Ref @e5 not found. Run browser_snapshot first to get current refs."
    := ref_not_found_no_fallback [] "@e5" "e5" rfl rfl

/-- C8 counterexample: `"@foo"` matches none of the three spec-named
ref-token forms (`@e<N>`, `ref=e<N>`, bare `e<N>`), yet locator
construction does not bypass the ref map: the selector is treated as a ref
and resolution fails instead of producing the plain CSS locator. -/
theorem non_ref_form_still_consults_refmap :
    specRefTokenForm "@foo" = false ∧
    getLocator [] "@foo"
      = .error
        "Ref @foo not found. Run browser_snapshot first to get current refs."
      ∧
    getLocator [] "@foo" ≠ .ok (.css "@foo") := by
  refine ⟨rfl, rfl, ?_⟩
  intro h
  rw [show getLocator [] "@foo"
      = .error
        "Ref @foo not found. Run browser_snapshot first to get current refs."
    from rfl] at h
  cases h

/-- C8 (amended): every selector rejected by `parseRef` — not `@`-prefixed,
not `ref=`-prefixed, and not a bare `e<digits>` token — bypasses the ref
map and is used as a plain CSS locator, whatever the map contains;
`parseRef` rejects exactly those selectors.  (Strings such as `"@foo"` or
`"ref=x"` are treated as refs even though they are not of the `e<N>`
forms.) -/
theorem css_selector_bypasses_refmap :
    (∀ (refMap : RefMap) (sel : String), parseRef sel = none →
      getLocator refMap sel = .ok (.css sel)) ∧
    (∀ sel : String, parseRef sel = none ↔
      (startsWithList sel.data ['@'] = false ∧
       startsWithList sel.data ['r', 'e', 'f', '='] = false ∧
       isBareERef sel.data = false)) := by
  constructor
  · intro refMap sel h
    simp [getLocator, isRef, h]
  · intro sel
    cases h1 : startsWithList sel.data ['@'] with
    | true => simp [parseRef, h1]
    | false =>
        cases h2 : startsWithList sel.data ['r', 'e', 'f', '='] with
        | true => simp [parseRef, h1, h2]
        | false =>
            cases h3 : isBareERef sel.data with
            | true => simp [parseRef, h1, h2, h3]
            | false => simp [parseRef, h1, h2, h3]

/-- Witness for `css_selector_bypasses_refmap` at `"div.foo"`. -/
theorem css_selector_bypasses_refmap_witness :
    getLocator [] "div.foo" = .ok (.css "div.foo") :=
  css_selector_bypasses_refmap.1 [] "div.foo" rfl

/-- C7 counterexample: with `maxDepth = 0` and interactive-only filtering,
the input line `"  - button \"X\""` lies at depth 1 > 0 yet is kept
(re-emitted at the root) and is assigned ref `e1` — the interactive-only
fast path never consults `maxDepth`. -/
theorem maxdepth_ignored_in_interactive_mode :
    getIndentLevel "  - button \"X\"" = 1 ∧
    processAriaTree "  - button \"X\""
        { interactive := true, maxDepth := some 0 }
      = ("- button \"X\" [ref=e1]",
         [("e1", ⟨"button", some "X", none⟩)]) :=
  ⟨rfl, rfl⟩

/-- C7 (amended): in the per-line processing used whenever the
interactive-only fast path is off, every line deeper than a specified
`maxDepth` is dropped — no output line, no ref, state untouched; the
interactive-only fast path does not apply the depth filter. -/
theorem maxdepth_drops_deeper_lines (line : String)
    (opts : SnapshotOptions) (md : Nat) (st : SnapState)
    (h1 : opts.maxDepth = some md) (h2 : getIndentLevel line > md) :
    processLine line opts st = (none, st) := by
  simp [processLine, h1, h2]

/-- Witness for `maxdepth_drops_deeper_lines` at depth 2 with limit 1. -/
theorem maxdepth_drops_deeper_lines_witness :
    processLine "    - button \"A\"" { maxDepth := some 1 } initSnapState
      = (none, initSnapState) :=
  maxdepth_drops_deeper_lines "    - button \"A\"" { maxDepth := some 1 } 1
    initSnapState rfl (by decide)

/-- C9 counterexample: under the interleaved schedule check₀, check₁,
insert₀, insert₁, both concurrent `create` calls for the same name
succeed — the existence check and the insert are separated by the
launch suspension, so the check-insert pair is not atomic. -/
theorem concurrent_creates_both_succeed :
    (runSched [false, true, false, true] twoCreatesSameName 0).t0.pc.succeeded
      = true ∧
    (runSched [false, true, false, true] twoCreatesSameName 0).t1.pc.succeeded
      = true :=
  ⟨rfl, rfl⟩

/-- C9 (amended): the existence check and the registry insert of `create`
are separated by the engine-launch suspension points, so two concurrent
`create` calls for the same name can both pass the check and both succeed
(the interleaved schedule); only when one call runs to completion before
the other starts does the second fail with the duplicate-session error. -/
theorem create_check_insert_not_atomic :
    ((runSched [false, true, false, true] twoCreatesSameName 0).t0.pc.succeeded
        = true ∧
     (runSched [false, true, false, true] twoCreatesSameName 0).t1.pc.succeeded
        = true) ∧
    ((runSched [false, false, true] twoCreatesSameName 0).t0.pc.succeeded
        = true ∧
     (runSched [false, false, true] twoCreatesSameName 0).t1.pc
        = .finished (.error "Session a already exists")) :=
  ⟨⟨rfl, rfl⟩, rfl, rfl⟩

end Browserplex
